import Mathlib

/-
  Verification of the parable-ingestion-pipeline repository.

  Shallow embedding: the pure decision logic of the pipeline (title cleaning,
  year extraction, editorial-pick derivation, genre post-processing, the
  Wikipedia/description fallbacks, the cover waterfall, the social-stats
  waterfall, and the Mongo upsert/link operations) is translated into Lean
  functions.  Network I/O is abstracted into explicit environment values
  (what each external source answered); Python dictionaries returned to the
  caller are modelled as association lists where key presence matters;
  Python floats are modelled as rationals; Mongo collections are modelled as
  lists of documents and the update operators ($set / $setOnInsert /
  $addToSet) as pure state transformers.
-/

namespace Parable

/-! ## Generic string helpers (models of the Python primitives used) -/

/-- Model of Python `\s` (ASCII whitespace as used by `str.strip` and `re`). -/
def pyIsSpace (c : Char) : Bool :=
  c == ' ' || c == '\t' || c == '\n' || c == '\r' || c == '\x0b' || c == '\x0c'

/-- Model of Python `\w` (regex word character, ASCII). -/
def pyIsWordChar (c : Char) : Bool :=
  c.isAlpha || c.isDigit || c == '_'

/-- Model of Python substring membership `needle in hay`. -/
def listContainsSub (needle : List Char) : List Char → Bool
  | [] => needle.isEmpty
  | c :: rest => needle.isPrefixOf (c :: rest) || listContainsSub needle rest

/-- Model of Python `needle in hay` on `str`. -/
def strContainsSub (hay needle : String) : Bool :=
  listContainsSub needle.data hay.data

/-- Model of Python slicing `s[:n]`. -/
def pyTruncate (s : String) (n : Nat) : String :=
  String.mk (s.data.take n)

/-- Model of Python `str.lower()` (ASCII range, which covers every string the
pipeline lowercases: blacklist tags and classic keywords). -/
def pyLower (s : String) : String :=
  String.mk (s.data.map Char.toLower)

/-! ## C4: editorial-pick derivation (main.py, run_ingestion lines 163-168) -/

/-- The fixed allow-list of canonical classic substrings (main.py line 166). -/
def classicKeywords : List String :=
  ["gatsby", "dracula", "pride", "war and peace"]

/-- Model of main.py lines 165-168: `is_high_rated = stats['averageRating'] >= 4.2`,
`is_classic = any(x in book_title.lower() for x in [...])`,
`editorPick = is_high_rated or is_classic`.  Float ratings are modelled as ℚ. -/
def editorPickFlag (averageRating : ℚ) (bookTitle : String) : Bool :=
  let isHighRated : Bool := decide ((21 : ℚ) / 5 ≤ averageRating)
  let isClassic : Bool := classicKeywords.any (fun x => strContainsSub (pyLower bookTitle) x)
  isHighRated || isClassic

/-- Claim C4: the derived editorial-pick flag is true iff the resolved rating is at
least 4.2 or the lowercased title contains one of the fixed classic substrings; in
particular it is true whenever the rating is at least 4.2 regardless of title, and
true for any allow-listed classic title regardless of rating. -/
theorem editorPick_characterization :
    (∀ (r : ℚ) (t : String), editorPickFlag r t = true ↔
        ((21 : ℚ) / 5 ≤ r ∨ ∃ x ∈ classicKeywords, strContainsSub (pyLower t) x = true))
    ∧ (∀ (r : ℚ) (t : String), (21 : ℚ) / 5 ≤ r → editorPickFlag r t = true)
    ∧ (∀ (r : ℚ) (x : String) (t : String), x ∈ classicKeywords →
        strContainsSub (pyLower t) x = true → editorPickFlag r t = true) := by
  refine ⟨fun r t => ?_, fun r t h => ?_, fun r x t hx hc => ?_⟩
  · simp [editorPickFlag, List.any_eq_true]
  · simp [editorPickFlag, h]
  · have : classicKeywords.any (fun x => strContainsSub (pyLower t) x) = true :=
      List.any_eq_true.mpr ⟨x, hx, hc⟩
    simp [editorPickFlag, this]

/-- Witness for C4: both branches exercised at concrete inputs. -/
theorem editorPick_characterization_witness :
    editorPickFlag ((9 : ℚ) / 2) "An Obscure Book" = true
    ∧ editorPickFlag 0 "The Great Gatsby" = true :=
  ⟨editorPick_characterization.2.1 ((9 : ℚ) / 2) "An Obscure Book" (by norm_num),
   editorPick_characterization.2.2 0 "gatsby" "The Great Gatsby" (by decide)
     (by decide)⟩

/-! ## C8: genre description lookup (goodreads.py, fetch_long_wikipedia_description) -/

/-- Outcome of the two-step Wikipedia lookup, seen from the pure logic:
either some step failed (exception / non-200), or the opensearch returned no
title, or a page was found and the `query.pages` dict yielded the given list of
`extract` strings (a missing extract appears as `""`, per `.get("extract", "")`). -/
inductive WikiLookup where
  | failed : WikiLookup
  | noResult : WikiLookup
  | found : List String → WikiLookup

/-- Model of goodreads.py lines 110-137.  On a found page the function returns on
the first iteration of the pages dict: `content[:2500]` when the extract is
non-empty, else the "in the ... genre." string; every other path falls through to
the "under the ... category." fallback. -/
def fetch_long_wikipedia_description (genreName : String) (lookup : WikiLookup) : String :=
  match lookup with
  | .found (content :: _) =>
      if content ≠ "" then pyTruncate content 2500
      else "A collection of books in the " ++ genreName ++ " genre."
  | .found [] => "A collection of books under the " ++ genreName ++ " category."
  | .noResult => "A collection of books under the " ++ genreName ++ " category."
  | .failed => "A collection of books under the " ++ genreName ++ " category."

/-- Claim C8: the genre-description lookup never returns an empty string, and on
no-page-found or any failure it returns the deterministic placeholder
"A collection of books under the X category.". -/
theorem wikipedia_description_never_empty :
    ∀ (g : String) (l : WikiLookup),
      0 < (fetch_long_wikipedia_description g l).length
      ∧ fetch_long_wikipedia_description g .failed
          = "A collection of books under the " ++ g ++ " category."
      ∧ fetch_long_wikipedia_description g .noResult
          = "A collection of books under the " ++ g ++ " category."
      ∧ fetch_long_wikipedia_description g (.found [])
          = "A collection of books under the " ++ g ++ " category." := by
  intro g l
  refine ⟨?_, rfl, rfl, rfl⟩
  have hcat : 0 < ("A collection of books under the " ++ g ++ " category.").length := by
    rw [String.length_append, String.length_append]
    have h1 : 0 < ("A collection of books under the " : String).length := by decide
    omega
  cases l with
  | failed => exact hcat
  | noResult => exact hcat
  | found pages =>
    cases pages with
    | nil => exact hcat
    | cons content rest =>
      by_cases hc : content = ""
      · have : 0 < ("A collection of books in the " ++ g ++ " genre.").length := by
          rw [String.length_append, String.length_append]
          have h1 : 0 < ("A collection of books in the " : String).length := by decide
          omega
        simpa [fetch_long_wikipedia_description, hc] using this
      · have hlen : 0 < content.data.length := by
          rcases content with ⟨d⟩
          cases d with
          | nil => exact absurd rfl hc
          | cons c cs => simp
        have : (fetch_long_wikipedia_description g (.found (content :: rest)))
            = pyTruncate content 2500 := by
          simp [fetch_long_wikipedia_description, hc]
        rw [this]
        show 0 < (content.data.take 2500).length
        rw [List.length_take]
        omega

/-! ## C10: social-stats lookups always yield both keys
(google_books.py fetch_social_stats, goodreads.py fetch_rating_fallback,
main.py run_ingestion lines 156-165) -/

/-- The two JSON fields of a Google Books `volumeInfo` the stats code reads;
`none` models a missing key.  Numbers are modelled as ℚ. -/
structure VolumeInfo where
  averageRating : Option ℚ
  ratingsCount : Option ℚ

/-- Outcome of one Google Books query attempt: a raised exception, a non-200
status, or a 200 with the (possibly empty) `items` list. -/
inductive QueryOutcome where
  | failure : QueryOutcome
  | badStatus : QueryOutcome
  | ok : List VolumeInfo → QueryOutcome

/-- The inner loop of fetch_social_stats: first item whose volumeInfo carries an
`averageRating` key (`if 'averageRating' in info`). -/
def findRatedItem : List VolumeInfo → Option VolumeInfo
  | [] => none
  | info :: rest =>
    if info.averageRating.isSome then some info else findRatedItem rest

/-- Model of google_books.py lines 9-37: the query waterfall (strict, fuzzy,
title-only — the list of per-query outcomes), returning the dict built from the
first rated item, else `{"averageRating": 0, "numReviews": 0}`.  The returned
Python dict is modelled as an association list so that key presence is visible. -/
def fetch_social_stats (outcomes : List QueryOutcome) : List (String × ℚ) :=
  match outcomes with
  | [] => [("averageRating", 0), ("numReviews", 0)]
  | .ok items :: rest =>
    match findRatedItem items with
    | some info =>
        [("averageRating", info.averageRating.getD 0),
         ("numReviews", info.ratingsCount.getD 0)]
    | none => fetch_social_stats rest
  | .failure :: rest => fetch_social_stats rest
  | .badStatus :: rest => fetch_social_stats rest

/-- What the Goodreads rating scrape produced: an exception anywhere (including a
missing `minirating` span), or the page text with the optional float match and the
optional ratings-count match of the two regexes. -/
inductive ScrapeOutcome where
  | failure : ScrapeOutcome
  | parsed : Option ℚ → Option ℕ → ScrapeOutcome

/-- Model of goodreads.py lines 52-73: returns the scraped rating dict when the
float regex matched (count defaulting to 100), else the all-zero dict. -/
def fetch_rating_fallback (outcome : ScrapeOutcome) : List (String × ℚ) :=
  match outcome with
  | .parsed (some r) cnt => [("averageRating", r), ("numReviews", (cnt.getD 100 : ℕ))]
  | .parsed none _ => [("averageRating", 0), ("numReviews", 0)]
  | .failure => [("averageRating", 0), ("numReviews", 0)]

/-- Model of Python `d[k]` on the stats dict: `none` is a KeyError. -/
def dictLookup (d : List (String × ℚ)) (k : String) : Option ℚ :=
  (d.find? (fun kv => kv.1 == k)).map (·.2)

/-- Model of Python `d.get(k, v)`. -/
def dictGetD (d : List (String × ℚ)) (k : String) (v : ℚ) : ℚ :=
  (dictLookup d k).getD v

/-- Model of main.py lines 156-161: Google first, then the Goodreads fallback when
`stats.get('averageRating', 0) == 0`. -/
def resolveStats (g : List QueryOutcome) (f : ScrapeOutcome) : List (String × ℚ) :=
  let stats := fetch_social_stats g
  if dictGetD stats "averageRating" 0 = 0 then fetch_rating_fallback f else stats

/-- Claim C10: fetch_social_stats and fetch_rating_fallback are total (the model
is a Lean function — every Python exception path is a constructor of the outcome
type) and always return a dict containing both the 'averageRating' and
'numReviews' keys; with no answer anywhere both default to 0; hence the
orchestrator's unguarded `stats['averageRating']` lookup never fails. -/
theorem social_stats_always_have_both_keys :
    ∀ (g : List QueryOutcome) (f : ScrapeOutcome),
      (dictLookup (fetch_social_stats g) "averageRating").isSome = true
      ∧ (dictLookup (fetch_social_stats g) "numReviews").isSome = true
      ∧ (dictLookup (fetch_rating_fallback f) "averageRating").isSome = true
      ∧ (dictLookup (fetch_rating_fallback f) "numReviews").isSome = true
      ∧ (dictLookup (resolveStats g f) "averageRating").isSome = true
      ∧ (dictLookup (resolveStats g f) "numReviews").isSome = true
      ∧ fetch_social_stats [] = [("averageRating", 0), ("numReviews", 0)]
      ∧ fetch_rating_fallback .failure = [("averageRating", 0), ("numReviews", 0)] := by
  have hg : ∀ g : List QueryOutcome,
      (dictLookup (fetch_social_stats g) "averageRating").isSome = true
      ∧ (dictLookup (fetch_social_stats g) "numReviews").isSome = true := by
    intro g
    induction g with
    | nil => exact ⟨rfl, rfl⟩
    | cons o rest ih =>
      cases o with
      | failure => exact ih
      | badStatus => exact ih
      | ok items =>
        cases hfind : findRatedItem items with
        | none => simpa [fetch_social_stats, hfind] using ih
        | some info => exact ⟨by simp [fetch_social_stats, hfind, dictLookup],
            by simp [fetch_social_stats, hfind, dictLookup]⟩
  have hf : ∀ f : ScrapeOutcome,
      (dictLookup (fetch_rating_fallback f) "averageRating").isSome = true
      ∧ (dictLookup (fetch_rating_fallback f) "numReviews").isSome = true := by
    intro f
    cases f with
    | failure => exact ⟨rfl, rfl⟩
    | parsed r cnt =>
      cases r with
      | none => exact ⟨rfl, rfl⟩
      | some q => exact ⟨by simp [fetch_rating_fallback, dictLookup],
          by simp [fetch_rating_fallback, dictLookup]⟩
  intro g f
  refine ⟨(hg g).1, (hg g).2, (hf f).1, (hf f).2, ?_, ?_, rfl, rfl⟩
  · unfold resolveStats
    by_cases h : dictGetD (fetch_social_stats g) "averageRating" 0 = 0
    · simpa [h] using (hf f).1
    · simpa [h] using (hg g).1
  · unfold resolveStats
    by_cases h : dictGetD (fetch_social_stats g) "averageRating" 0 = 0
    · simpa [h] using (hf f).2
    · simpa [h] using (hg g).2

/-! ## C5: genre-list resolution (goodreads.py, fetch_goodreads_genres) -/

/-- The fixed blacklist of non-genre shelf tags (goodreads.py line 102). -/
def shelfBlacklist : List String :=
  ["to-read", "currently-reading", "favorites", "owned", "kindle", "books-i-own"]

/-- The scrape loop of lines 96-100: `if name and name not in genres:
genres.append(name)` — keeps non-empty names, first occurrence only, by exact
(case-sensitive) list membership. -/
def collectGenreNames (acc : List String) : List String → List String
  | [] => acc
  | name :: rest =>
    if name ≠ "" && !(acc.contains name) then collectGenreNames (acc ++ [name]) rest
    else collectGenreNames acc rest

/-- Model of goodreads.py lines 75-107.  `none` models every empty-handed path
(non-200 search, no bookTitle link, any exception); `some names` carries the
genre-link texts scraped from the book page in document order.  The happy path
is `[g for g in genres if g.lower() not in blacklist][:5]`. -/
def fetch_goodreads_genres (scraped : Option (List String)) : List String :=
  match scraped with
  | none => []
  | some names =>
    let genres := collectGenreNames [] names
    (genres.filter (fun g => !(shelfBlacklist.contains (pyLower g)))).take 5

/-- Counterexample to claim C5 as stated: deduplication is NOT case-insensitive.
On the scraped tags ["to-read", "Fiction", "fiction"] the function returns two
entries that differ only in case. -/
theorem goodreads_genres_dedup_not_case_insensitive :
    fetch_goodreads_genres (some ["to-read", "Fiction", "fiction"])
        = ["Fiction", "fiction"]
    ∧ ("Fiction" == "fiction") = false
    ∧ pyLower "Fiction" = pyLower "fiction" := by
  refine ⟨by decide, by decide, by decide⟩

/-- Every member of the accumulator output was in the accumulator or is a
non-empty member of the input. -/
theorem collectGenreNames_mem (l : List String) :
    ∀ acc g, g ∈ collectGenreNames acc l → g ∈ acc ∨ (g ∈ l ∧ g ≠ "") := by
  induction l with
  | nil => intro acc g h; exact Or.inl (by simpa [collectGenreNames] using h)
  | cons name rest ih =>
    intro acc g h
    by_cases hname : name ≠ "" && !(acc.contains name)
    · rw [collectGenreNames, if_pos hname] at h
      rcases ih (acc ++ [name]) g h with hacc | ⟨hmem, hne⟩
      · rcases List.mem_append.mp hacc with h1 | h2
        · exact Or.inl h1
        · have hname' : name ≠ "" ∧ acc.contains name = false := by simpa using hname
          have : g = name := by simpa using h2
          subst this
          exact Or.inr ⟨List.mem_cons_self _ _, hname'.1⟩
      · exact Or.inr ⟨List.mem_cons_of_mem _ hmem, hne⟩
    · rw [collectGenreNames, if_neg hname] at h
      rcases ih acc g h with hacc | ⟨hmem, hne⟩
      · exact Or.inl hacc
      · exact Or.inr ⟨List.mem_cons_of_mem _ hmem, hne⟩

/-- The scrape-loop accumulator never introduces a duplicate. -/
theorem collectGenreNames_nodup (l : List String) :
    ∀ acc, acc.Nodup → (collectGenreNames acc l).Nodup := by
  induction l with
  | nil => intro acc h; simpa [collectGenreNames] using h
  | cons name rest ih =>
    intro acc hacc
    by_cases hname : name ≠ "" && !(acc.contains name)
    · rw [collectGenreNames, if_pos hname]
      refine ih _ ?_
      have hname' : name ≠ "" ∧ acc.contains name = false := by simpa using hname
      have hnotin : name ∉ acc := by
        intro hmem
        simp [List.contains_eq_any_beq, List.any_eq_true] at hname'
        exact hname'.2 hmem
      simpa [List.nodup_append] using ⟨hacc, hnotin⟩
    · rw [collectGenreNames, if_neg hname]
      exact ih _ hacc

/-- Claim C5, amended: genre-list resolution returns at most 5 entries, with
exact-match (case-sensitive) deduplication, every entry non-empty and — case-
insensitively — free of every blacklisted shelf tag; every empty-handed scrape
returns the empty list.  (The claim's assertion that deduplication is also
case-insensitive is refuted above: the blacklist filter lowercases, the dedup
does not.) -/
theorem goodreads_genres_amended :
    ∀ scraped : Option (List String),
      (fetch_goodreads_genres scraped).length ≤ 5
      ∧ (fetch_goodreads_genres scraped).Nodup
      ∧ (∀ g ∈ fetch_goodreads_genres scraped,
          shelfBlacklist.contains (pyLower g) = false ∧ g ≠ "")
      ∧ fetch_goodreads_genres none = [] := by
  intro scraped
  cases scraped with
  | none => exact ⟨by simp [fetch_goodreads_genres], by simp [fetch_goodreads_genres],
      by simp [fetch_goodreads_genres], rfl⟩
  | some names =>
    refine ⟨List.length_take_le _ _, ?_, ?_, rfl⟩
    · have h1 : (collectGenreNames [] names).Nodup :=
        collectGenreNames_nodup names [] List.nodup_nil
      exact ((h1.filter _).sublist (List.take_sublist _ _))
    · intro g hg
      have hfil : g ∈ (collectGenreNames [] names).filter
          (fun g => !(shelfBlacklist.contains (pyLower g))) :=
        List.mem_of_mem_take hg
      have hmem := List.mem_filter.mp hfil
      have hbl : shelfBlacklist.contains (pyLower g) = false := by
        simpa using hmem.2
      have hne : g ≠ "" := by
        rcases collectGenreNames_mem names [] g hmem.1 with h | ⟨_, hne⟩
        · simp at h
        · exact hne
      exact ⟨hbl, hne⟩

/-- Witness for C5 (amended): the theorem applied at a concrete scrape. -/
theorem goodreads_genres_amended_witness :
    shelfBlacklist.contains (pyLower "Classics") = false ∧ "Classics" ≠ "" :=
  (goodreads_genres_amended (some ["Classics", "to-read", "Classics"])).2.2.1
    "Classics" (by decide)

/-! ## C6: description resolution (main.py lines 94-107,
data_transformer.py prepare_book_payload line 48) -/

/-- Model of Python `a or b` on optional strings (`None` and `""` are falsy). -/
def pyOrStr (a b : Option String) : Option String :=
  match a with
  | some s => if s = "" then b else some s
  | none => b

/-- Model of main.py lines 94-107: `final_description = google_desc or
raw_data.get('description')`; if that is falsy or shorter than 100 characters the
EPUB excerpt is stored in `raw_data['description']`, else `final_description`. -/
def resolveDescription (googleDesc archiveDesc : Option String)
    (epubExcerpt : String) : String :=
  match pyOrStr googleDesc archiveDesc with
  | none => epubExcerpt
  | some fd => if fd.length < 100 then epubExcerpt else fd

/-- Model of the `description` field of data_transformer.py line 48:
`raw_data.get('description', 'No description available.')`. -/
def prepare_book_payload_description (rawDesc : Option String) : String :=
  rawDesc.getD "No description available."

/-- The description the pipeline persists for a book: run_ingestion always stores
the resolved description into `raw_data['description']`, so the transformer's
`.get` default never applies. -/
def persistedDescription (googleDesc archiveDesc : Option String)
    (epubExcerpt : String) : String :=
  prepare_book_payload_description
    (some (resolveDescription googleDesc archiveDesc epubExcerpt))

/-- Claim C6 is right about the preference order but the code violates the
never-empty guarantee: when the bibliographic description is absent, the archive
description is the empty string fetch_book_data always provides, and the EPUB
excerpt is empty (exactly what parse_epub_details returns for an unparseable
container, or when no paragraph exceeds 150 characters), the persisted
description is the empty string — the transformer's documented default
'No description available.' is unreachable because the key is always present.
The first conjunct evaluates the code at the failing input; the others show the
documented default is non-empty and would apply only were the key absent. -/
theorem persisted_description_can_be_empty :
    persistedDescription none (some "") "" = ""
    ∧ 0 < ("No description available." : String).length
    ∧ 0 < (prepare_book_payload_description none).length :=
  ⟨rfl, by decide, by decide⟩

/-! ## C7: title normalization (main.py clean_title, lines 30-35) -/

/-- Does `\s+by\s+` continue to match here after its first whitespace character:
consume further whitespace, then require `b`/`B`, `y`/`Y`, then one whitespace. -/
def matchWsThenBy : List Char → Bool
  | [] => false
  | c :: rest =>
    if pyIsSpace c then matchWsThenBy rest
    else
      match c :: rest with
      | b :: y :: w :: _ =>
        (b == 'b' || b == 'B') && (y == 'y' || y == 'Y') && pyIsSpace w
      | _ => false

/-- Does a match of `\s+by\s+|;` (re.IGNORECASE) start at this position. -/
def sepAt : List Char → Bool
  | [] => false
  | c :: rest => c == ';' || (pyIsSpace c && matchWsThenBy rest)

/-- `re.split(r'\s+by\s+|;', raw_title, flags=re.IGNORECASE)[0]`: the prefix up
to the leftmost match start. -/
def firstSegment : List Char → List Char
  | [] => []
  | c :: rest => if sepAt (c :: rest) then [] else c :: firstSegment rest

/-- Model of Python `str.strip()`. -/
def pyStrip (cs : List Char) : List Char :=
  ((cs.dropWhile pyIsSpace).reverse.dropWhile pyIsSpace).reverse

/-- Model of main.py lines 30-35. -/
def clean_title (rawTitle : String) : String :=
  if rawTitle = "" then "Unknown Title"
  else String.mk (pyStrip (firstSegment rawTitle.data))

/-- firstSegment splits the input at the leftmost separator match: the input is
the segment followed by a remainder that is empty or starts with a separator,
and no separator match starts inside the segment. -/
theorem firstSegment_spec (cs : List Char) :
    ∃ rest, cs = firstSegment cs ++ rest
      ∧ (∀ i, i < (firstSegment cs).length → sepAt (cs.drop i) = false)
      ∧ (rest = [] ∨ sepAt rest = true) := by
  induction cs with
  | nil => exact ⟨[], rfl, by simp [firstSegment], Or.inl rfl⟩
  | cons c tl ih =>
    by_cases hsep : sepAt (c :: tl) = true
    · refine ⟨c :: tl, ?_, ?_, Or.inr hsep⟩
      · simp [firstSegment, hsep]
      · intro i hi
        simp [firstSegment, hsep] at hi
    · rcases ih with ⟨rest, heq, hnone, hrest⟩
      refine ⟨rest, ?_, ?_, hrest⟩
      · simp only [firstSegment, if_neg hsep, List.cons_append]
        exact congrArg (c :: ·) heq
      · intro i hi
        cases i with
        | zero => simpa using (Bool.not_eq_true _).mp hsep
        | succ j =>
          have : j < (firstSegment tl).length := by
            simpa [firstSegment, if_neg hsep] using hi
          simpa using hnone j this

/-- Counterexample to claim C7 as stated: the empty raw title contains no
separator match (it is the empty character list, equal to its own stripped
form), yet clean_title returns the fixed placeholder "Unknown Title" rather
than the input unchanged modulo whitespace stripping — `if not raw_title:
return "Unknown Title"` fires before any suffix handling. -/
theorem clean_title_empty_counterexample :
    clean_title "" = "Unknown Title"
    ∧ (("" : String).data = [])
    ∧ String.mk (pyStrip ("" : String).data) = ""
    ∧ (("Unknown Title" : String) == "") = false :=
  ⟨rfl, rfl, rfl, by decide⟩

/-- Claim C7, amended: for every NON-empty raw title, clean_title removes
exactly the trailing suffix beginning at the first " by "-style or semicolon
separator, returning the stripped isolated title, and a title containing no
separator match is returned unchanged modulo whitespace stripping; the empty
title (falsy in Python, refuting the unamended universal claim above) maps to
the placeholder "Unknown Title". -/
theorem clean_title_spec :
    (∀ raw : String, raw ≠ "" →
      (∀ i, i < raw.data.length → sepAt (raw.data.drop i) = false) →
      clean_title raw = String.mk (pyStrip raw.data))
    ∧ (∀ raw : String, raw ≠ "" →
      ∃ seg rest, raw.data = seg ++ rest
        ∧ clean_title raw = String.mk (pyStrip seg)
        ∧ (∀ i, i < seg.length → sepAt (raw.data.drop i) = false)
        ∧ (rest = [] ∨ sepAt rest = true))
    ∧ clean_title "" = "Unknown Title" := by
  refine ⟨?_, ?_, rfl⟩
  · intro raw hraw hnosep
    rcases firstSegment_spec raw.data with ⟨rest, heq, _, hrest⟩
    have hresteq : rest = raw.data.drop (firstSegment raw.data).length := by
      have hdl : (firstSegment raw.data ++ rest).drop (firstSegment raw.data).length
          = rest := List.drop_left _ _
      rw [← heq] at hdl
      exact hdl.symm
    have hrestnil : rest = [] := by
      rcases hrest with h | h
      · exact h
      · by_cases hlt : (firstSegment raw.data).length < raw.data.length
        · rw [hresteq] at h
          exact absurd h (by simp [hnosep _ hlt])
        · rw [hresteq, List.drop_eq_nil_of_le (Nat.le_of_not_lt hlt)]

    have hfull : firstSegment raw.data = raw.data := by
      conv_rhs => rw [heq, hrestnil, List.append_nil]
    rw [clean_title, if_neg hraw, hfull]
  · intro raw hraw
    rcases firstSegment_spec raw.data with ⟨rest, heq, hnone, hrest⟩
    exact ⟨firstSegment raw.data, rest, heq,
      by rw [clean_title, if_neg hraw], hnone, hrest⟩

/-- Witness for C7: a separator-free title is only stripped; a title with a
" by <author>" suffix is split there. -/
theorem clean_title_spec_witness :
    clean_title " Hamlet " = String.mk (pyStrip " Hamlet ".data)
    ∧ ∃ seg rest, ("A Tale of Two Cities by Charles Dickens" : String).data = seg ++ rest
        ∧ clean_title "A Tale of Two Cities by Charles Dickens" = String.mk (pyStrip seg)
        ∧ (∀ i, i < seg.length →
            sepAt (("A Tale of Two Cities by Charles Dickens" : String).data.drop i) = false)
        ∧ (rest = [] ∨ sepAt rest = true) :=
  ⟨clean_title_spec.1 " Hamlet " (by decide) (by decide),
   clean_title_spec.2.1 "A Tale of Two Cities by Charles Dickens" (by decide)⟩

/-! ## C3: publication-year extraction (google_books.py _clean_year, lines 41-46)
The regex is `\b(\d{4})\b`: four digits delimited by word boundaries. -/

/-- A regex word boundary holds against this neighbouring character (`none` is a
string edge). -/
def boundaryOk : Option Char → Bool
  | none => true
  | some c => !(pyIsWordChar c)

/-- Does `\b\d{4}\b` match starting at this position, given the previous
character (`none` at the string start)?  Returns the captured four digits. -/
def fourDigitTokenAt (prev : Option Char) : List Char → Option (List Char)
  | a :: b :: c :: d :: rest =>
    if a.isDigit && b.isDigit && c.isDigit && d.isDigit && boundaryOk prev
        && boundaryOk rest.head? then
      some [a, b, c, d]
    else none
  | _ => none

/-- `re.search`: the leftmost position where the pattern matches. -/
def searchFourDigitToken (prev : Option Char) : List Char → Option (List Char)
  | [] => none
  | c :: rest =>
    match fourDigitTokenAt prev (c :: rest) with
    | some t => some t
    | none => searchFourDigitToken (some c) rest

/-- Model of google_books.py lines 41-46: `None`/empty input is absence, else the
first `\b(\d{4})\b` match of the stringified date. -/
def clean_year (dateStr : Option String) : Option String :=
  match dateStr with
  | none => none
  | some s =>
    if s = "" then none
    else (searchFourDigitToken none s.data).map String.mk

/-- Four consecutive digits occur at position `i`. -/
def fourRunAt (cs : List Char) (i : Nat) : Bool :=
  ((cs.drop i).take 4).length == 4 && ((cs.drop i).take 4).all Char.isDigit

/-- A character failing the regex word class is not a digit. -/
theorem notWord_notDigit {c : Char} (h : pyIsWordChar c = false) : c.isDigit = false := by
  unfold pyIsWordChar at h
  rcases Bool.or_eq_false_iff.mp h with ⟨h1, _⟩
  exact (Bool.or_eq_false_iff.mp h1).2

/-- Soundness of the scan: a match implies four consecutive digits somewhere. -/
theorem searchFourDigitToken_sound :
    ∀ (cs : List Char) (prev : Option Char) (t : List Char),
      searchFourDigitToken prev cs = some t →
      ∃ i, i < cs.length ∧ fourRunAt cs i = true := by
  intro cs
  induction cs with
  | nil => intro prev t h; simp [searchFourDigitToken] at h
  | cons c tl ih =>
    intro prev t h
    rw [searchFourDigitToken] at h
    cases htok : fourDigitTokenAt prev (c :: tl) with
    | some tok =>
      refine ⟨0, by simp, ?_⟩
      cases tl with
      | nil => simp [fourDigitTokenAt] at htok
      | cons b tl2 =>
        cases tl2 with
        | nil => simp [fourDigitTokenAt] at htok
        | cons c2 tl3 =>
          cases tl3 with
          | nil => simp [fourDigitTokenAt] at htok
          | cons d tl4 =>
            rw [fourDigitTokenAt] at htok
            split_ifs at htok with hguard
            simp only [Bool.and_eq_true] at hguard
            obtain ⟨⟨⟨⟨⟨ha, hb⟩, hc⟩, hd⟩, _⟩, _⟩ := hguard
            simp [fourRunAt, ha, hb, hc, hd]
    | none =>
      rw [htok] at h
      rcases ih (some c) t h with ⟨i, hi, hrun⟩
      refine ⟨i + 1, by simpa using hi, ?_⟩
      simpa [fourRunAt, List.drop_succ_cons] using hrun

/-- Completeness of the scan on a well-delimited token: if no four consecutive
digits occur inside the prefix, the prefix's last character (resp. the previous
character when the prefix is empty) fails the word class, and the character after
the token does too, then the scan returns exactly the token. -/
theorem searchFourDigitToken_finds :
    ∀ (pre : List Char) (prev : Option Char) (a b c d : Char) (rest : List Char),
      a.isDigit = true → b.isDigit = true → c.isDigit = true → d.isDigit = true →
      (∀ i, i < pre.length → fourRunAt pre i = false) →
      (pre = [] → boundaryOk prev = true) →
      (∀ p, pre.getLast? = some p → pyIsWordChar p = false) →
      boundaryOk rest.head? = true →
      searchFourDigitToken prev (pre ++ a :: b :: c :: d :: rest) = some [a, b, c, d] := by
  intro pre
  induction pre with
  | nil =>
    intro prev a b c d rest ha hb hc hd _ hprev _ hrest
    rw [List.nil_append, searchFourDigitToken, fourDigitTokenAt]
    rw [if_pos (by simp [ha, hb, hc, hd, hprev rfl, hrest])]
  | cons p pre' ih =>
    intro prev a b c d rest ha hb hc hd hpre _ hlastc hrest
    rw [List.cons_append, searchFourDigitToken]
    have hnone : fourDigitTokenAt prev (p :: (pre' ++ a :: b :: c :: d :: rest)) = none := by
      cases pre' with
      | nil =>
        have hp : pyIsWordChar p = false := hlastc p rfl
        rw [List.nil_append, fourDigitTokenAt]
        rw [if_neg (by simp [notWord_notDigit hp])]
      | cons q pre'' =>
        cases pre'' with
        | nil =>
          have hq : pyIsWordChar q = false := hlastc q rfl
          rw [List.cons_append, List.nil_append, fourDigitTokenAt]
          rw [if_neg (by simp [notWord_notDigit hq])]
        | cons r pre''' =>
          cases pre''' with
          | nil =>
            have hr : pyIsWordChar r = false := hlastc r rfl
            rw [List.cons_append, List.cons_append, List.nil_append, fourDigitTokenAt]
            rw [if_neg (by simp [notWord_notDigit hr])]
          | cons s pre'''' =>
            rw [List.cons_append, List.cons_append, List.cons_append, fourDigitTokenAt]
            by_cases hall : (p.isDigit && q.isDigit && r.isDigit && s.isDigit) = true
            · exfalso
              simp only [Bool.and_eq_true] at hall
              obtain ⟨⟨⟨hp, hq⟩, hr⟩, hs⟩ := hall
              have hrun : fourRunAt (p :: q :: r :: s :: pre'''') 0 = true := by
                simp [fourRunAt, hp, hq, hr, hs]
              have := hpre 0 (by simp)
              rw [hrun] at this
              exact Bool.true_eq_false.mp this
            · rw [if_neg (by
                intro hcontra
                apply hall
                simp only [Bool.and_eq_true] at hcontra
                obtain ⟨⟨⟨⟨⟨h1, h2⟩, h3⟩, h4⟩, _⟩, _⟩ := hcontra
                simp [h1, h2, h3, h4])]
    rw [hnone]
    refine ih (some p) a b c d rest ha hb hc hd ?_ ?_ ?_ hrest
    · intro i hi
      have := hpre (i + 1) (by simpa using hi)
      simpa [fourRunAt, List.drop_succ_cons] using this
    · intro hnil
      subst hnil
      have hp : pyIsWordChar p = false := hlastc p rfl
      simp [boundaryOk, hp]
    · intro x hx
      cases pre' with
      | nil => simp at hx
      | cons y ys => exact hlastc x (by simpa [List.getLast?_cons_cons] using hx)

/-- Counterexample to claim C3 as stated: "abc1925" contains exactly one run of
four consecutive digits (at index 3, as the position filter shows), yet
_clean_year returns absence instead of "1925", because the regex requires word
boundaries and the letter 'c' is a word character. -/
theorem clean_year_counterexample :
    ((List.range ("abc1925" : String).data.length).filter
        (fun i => fourRunAt ("abc1925" : String).data i)) = [3]
    ∧ clean_year (some "abc1925") = none :=
  ⟨by decide, by decide⟩

/-- Claim C3, amended: _clean_year returns absence on `None` input and on every
string with no four consecutive digits; and it returns the digit run unchanged
when the string contains a four-digit run that is delimited by word boundaries
(its neighbours, when present, are not letters, digits or underscores) and no
four consecutive digits occur before it.  (The unamended claim, refuted above,
promised the run back without the word-boundary proviso.) -/
theorem clean_year_amended :
    (∀ s : String, (∀ i, i < s.data.length → fourRunAt s.data i = false) →
        clean_year (some s) = none)
    ∧ clean_year none = none
    ∧ (∀ (pre : List Char) (a b c d : Char) (rest : List Char),
        a.isDigit = true → b.isDigit = true → c.isDigit = true → d.isDigit = true →
        (∀ i, i < pre.length → fourRunAt pre i = false) →
        (∀ p, pre.getLast? = some p → pyIsWordChar p = false) →
        boundaryOk rest.head? = true →
        clean_year (some (String.mk (pre ++ a :: b :: c :: d :: rest)))
          = some (String.mk [a, b, c, d])) := by
  refine ⟨?_, rfl, ?_⟩
  · intro s hno
    by_cases hs : s = ""
    · simp [clean_year, hs]
    · rw [clean_year, if_neg hs]
      cases hsearch : searchFourDigitToken none s.data with
      | none => rfl
      | some t =>
        exfalso
        rcases searchFourDigitToken_sound s.data none t hsearch with ⟨i, hi, hrun⟩
        have := hno i hi
        rw [hrun] at this
        exact Bool.true_eq_false.mp this
  · intro pre a b c d rest ha hb hc hd hpre hlastc hrest
    have hne : String.mk (pre ++ a :: b :: c :: d :: rest) ≠ "" := by
      intro hcontra
      have : (pre ++ a :: b :: c :: d :: rest) = [] := congrArg String.data hcontra
      simp at this
    rw [clean_year, if_neg hne]
    rw [searchFourDigitToken_finds pre none a b c d rest ha hb hc hd hpre
      (fun _ => rfl) hlastc hrest]
    rfl

/-- Witness for C3 (amended): each hypothesis-bearing conjunct at concrete input. -/
theorem clean_year_amended_witness :
    clean_year (some "no digits here") = none
    ∧ clean_year (some (String.mk ("April ".data ++ '1' :: '9' :: '2' :: '5' :: [])))
        = some (String.mk ['1', '9', '2', '5']) := by
  constructor
  · exact clean_year_amended.1 "no digits here" (by decide)
  · refine clean_year_amended.2.2 "April ".data '1' '9' '2' '5' []
      (by decide) (by decide) (by decide) (by decide) (by decide) ?_ (by decide)
    intro p hp
    rw [show ("April " : String).data.getLast? = some ' ' from by decide] at hp
    injection hp with h
    subst h
    decide

/-! ## C9: modern-cover waterfall (goodreads.py get_modern_cover_url, lines
147-167, and is_valid_image, lines 139-145) -/

/-- Model of Python `url.replace("http://", "https://")`: every non-overlapping
occurrence, scanning left to right. -/
def replHttp : List Char → List Char
  | 'h' :: 't' :: 't' :: 'p' :: ':' :: '/' :: '/' :: rest =>
    'h' :: 't' :: 't' :: 'p' :: 's' :: ':' :: '/' :: '/' :: replHttp rest
  | c :: rest => c :: replHttp rest
  | [] => []

/-- String wrapper for `replHttp`. -/
def httpsUrl (s : String) : String :=
  String.mk (replHttp s.data)

/-- What the three external sources answered, seen from the pure waterfall:
the Open Library `cover_i` of the first search doc (none models absence, an
empty doc list or an exception), whether the bytes fetched from the Open Library
cover URL pass `is_valid_image` (false also models a failed fetch), the Google
Books image link after the large/medium/thumbnail `or`-chain (none models
absence or an exception), and — a fact about the world the code never consults —
whether the bytes at the Google URL decode as a real image. -/
structure CoverEnv where
  openLibCoverId : Option Nat
  openLibImageValid : Bool
  googleImageLink : Option String
  googleImageValid : Bool

/-- The Open Library cover URL (line 154). -/
def openLibraryCoverUrl (cid : Nat) : String :=
  "https://covers.openlibrary.org/b/id/" ++ toString cid ++ "-L.jpg"

/-- The Gutenberg cached cover URL (line 167). -/
def gutenbergCoverUrl (gutenbergId : String) : String :=
  "https://www.gutenberg.org/cache/epub/" ++ gutenbergId ++ "/pg" ++ gutenbergId
    ++ ".cover.medium.jpg"

/-- Step B then step C of the waterfall: the Google Books link (https-rewritten,
returned if non-empty, with no image validation) and the unconditional Gutenberg
fallback. -/
def googleThenGutenberg (env : CoverEnv) (gutenbergId : String) : String :=
  match env.googleImageLink with
  | some link => if httpsUrl link ≠ "" then httpsUrl link else gutenbergCoverUrl gutenbergId
  | none => gutenbergCoverUrl gutenbergId

/-- Model of goodreads.py lines 147-167: Open Library first (accepted only when
`is_valid_image` approves the fetched bytes), then Google Books, then the
Gutenberg cache. -/
def get_modern_cover_url (env : CoverEnv) (gutenbergId : String) : String :=
  match env.openLibCoverId with
  | some cid =>
    if env.openLibImageValid then openLibraryCoverUrl cid
    else googleThenGutenberg env gutenbergId
  | none => googleThenGutenberg env gutenbergId

/-- Counterexample to claim C9 as stated: with Open Library empty-handed, the
waterfall accepts the Google Books URL even though the bytes it returns do not
decode as a real image — the validation step guards only the Open Library
candidate. -/
theorem modern_cover_accepts_unvalidated_google_url :
    get_modern_cover_url
        { openLibCoverId := none, openLibImageValid := false,
          googleImageLink := some "http://img.example.com/cover.png",
          googleImageValid := false } "84"
      = "https://img.example.com/cover.png"
    ∧ ({ openLibCoverId := none, openLibImageValid := false,
          googleImageLink := some "http://img.example.com/cover.png",
          googleImageValid := false : CoverEnv }).googleImageValid = false :=
  ⟨by decide, rfl⟩

/-- Claim C9, amended: the waterfall tries its sources in the fixed order Open
Library, then Google Books, then the archive's cached cover as unconditional last
resort, but the decode-as-a-real-image validation is applied only to the Open
Library candidate: the Google Books candidate is accepted without any byte
validation (independently of `googleImageValid`). -/
theorem modern_cover_waterfall_amended :
    (∀ (env : CoverEnv) (gid : String) (cid : Nat),
        env.openLibCoverId = some cid → env.openLibImageValid = true →
        get_modern_cover_url env gid = openLibraryCoverUrl cid)
    ∧ (∀ (env : CoverEnv) (gid : String) (cid : Nat),
        env.openLibCoverId = some cid → env.openLibImageValid = false →
        get_modern_cover_url env gid = googleThenGutenberg env gid)
    ∧ (∀ (env : CoverEnv) (gid : String),
        env.openLibCoverId = none →
        get_modern_cover_url env gid = googleThenGutenberg env gid)
    ∧ (∀ (env : CoverEnv) (gid : String) (link : String),
        env.googleImageLink = some link → httpsUrl link ≠ "" →
        googleThenGutenberg env gid = httpsUrl link)
    ∧ (∀ (env : CoverEnv) (gid : String),
        env.googleImageLink = none →
        googleThenGutenberg env gid = gutenbergCoverUrl gid) := by
  refine ⟨?_, ?_, ?_, ?_, ?_⟩
  · intro env gid cid hcid hvalid
    simp [get_modern_cover_url, hcid, hvalid]
  · intro env gid cid hcid hinvalid
    simp [get_modern_cover_url, hcid, hinvalid]
  · intro env gid hnone
    simp [get_modern_cover_url, hnone]
  · intro env gid link hlink hne
    simp [googleThenGutenberg, hlink, hne]
  · intro env gid hnone
    simp [googleThenGutenberg, hnone]

/-- Witness for C9 (amended): each conjunct at a concrete environment. -/
theorem modern_cover_waterfall_amended_witness :
    get_modern_cover_url
        { openLibCoverId := some 12, openLibImageValid := true,
          googleImageLink := some "http://g", googleImageValid := true } "11"
      = openLibraryCoverUrl 12
    ∧ get_modern_cover_url
        { openLibCoverId := some 12, openLibImageValid := false,
          googleImageLink := none, googleImageValid := false } "11"
      = googleThenGutenberg
          { openLibCoverId := some 12, openLibImageValid := false,
            googleImageLink := none, googleImageValid := false } "11"
    ∧ get_modern_cover_url
        { openLibCoverId := none, openLibImageValid := false,
          googleImageLink := none, googleImageValid := false } "11"
      = googleThenGutenberg
          { openLibCoverId := none, openLibImageValid := false,
            googleImageLink := none, googleImageValid := false } "11"
    ∧ googleThenGutenberg
        { openLibCoverId := none, openLibImageValid := false,
          googleImageLink := some "http://g", googleImageValid := false } "11"
      = httpsUrl "http://g"
    ∧ googleThenGutenberg
        { openLibCoverId := none, openLibImageValid := false,
          googleImageLink := none, googleImageValid := false } "11"
      = gutenbergCoverUrl "11" :=
  ⟨modern_cover_waterfall_amended.1 _ "11" 12 rfl rfl,
   modern_cover_waterfall_amended.2.1 _ "11" 12 rfl rfl,
   modern_cover_waterfall_amended.2.2.1 _ "11" rfl,
   modern_cover_waterfall_amended.2.2.2.1 _ "11" "http://g" rfl (by decide),
   modern_cover_waterfall_amended.2.2.2.2 _ "11" rfl⟩

/-! ## C1: author upsert and book linking (mongo_handler.py upsert_author,
lines 65-92, and link_book_to_author, lines 157-166).
The `authors` collection is a list of documents; ObjectIds are Nats. -/

/-- An Author document, with the fields upsert_author touches. -/
structure AuthorDoc where
  oid : Nat
  slug : String
  name : String
  bio : String
  profilePicture : String
  nationality : String
  books : List Nat
  createdAt : Nat
deriving DecidableEq

/-- The payload prepare_author_payload builds (data_transformer.py lines 9-21);
its `books` entry is always `[]` and is popped by upsert_author anyway. -/
structure AuthorPayload where
  name : String
  slug : String
  bio : String
  profilePicture : String
  nationality : String
  books : List Nat
deriving DecidableEq

/-- Model of upsert_author: find_one_and_update on `slug` with `$set` of the
payload minus the popped `books` key, and `$setOnInsert` of `createdAt` and an
empty `books` array; upsert=True.  Returns the matched or inserted oid and the
new collection; `freshOid`/`now` stand for the store-generated ObjectId and
`datetime.utcnow()`. -/
def upsert_author (db : List AuthorDoc) (p : AuthorPayload) (freshOid now : Nat) :
    Nat × List AuthorDoc :=
  match db.find? (fun doc => doc.slug == p.slug) with
  | some doc =>
    (doc.oid,
     db.map (fun d =>
       if d.slug == p.slug then
         { d with slug := p.slug, name := p.name, bio := p.bio,
                  profilePicture := p.profilePicture, nationality := p.nationality }
       else d))
  | none =>
    (freshOid,
     db ++ [{ oid := freshOid, slug := p.slug, name := p.name, bio := p.bio,
              profilePicture := p.profilePicture, nationality := p.nationality,
              books := [], createdAt := now }])

/-- The per-document effect of `$addToSet {books: bookId}` on the matched author. -/
def addBookToSet (authorId bookId : Nat) (d : AuthorDoc) : AuthorDoc :=
  if d.oid == authorId then
    { d with books := if d.books.contains bookId then d.books else d.books ++ [bookId] }
  else d

/-- Model of link_book_to_author: `update_one({_id}, {$addToSet: {books: ...}})`. -/
def link_book_to_author (db : List AuthorDoc) (authorId bookId : Nat) : List AuthorDoc :=
  db.map (addBookToSet authorId bookId)

/-- Claim C1: on update, upsert_author leaves every document's oid and books list
untouched; on first creation it initializes books to []; linking is an idempotent
set-insertion, so each books list gains exactly the linked id, never shrinks and
never acquires a duplicate. -/
theorem author_owned_books_invariants :
    (∀ (db : List AuthorDoc) (p : AuthorPayload) (freshOid now : Nat) (doc : AuthorDoc),
        db.find? (fun d => d.slug == p.slug) = some doc →
        (upsert_author db p freshOid now).2.map (fun d => (d.oid, d.books))
          = db.map (fun d => (d.oid, d.books)))
    ∧ (∀ (db : List AuthorDoc) (p : AuthorPayload) (freshOid now : Nat),
        db.find? (fun d => d.slug == p.slug) = none →
        ∃ d, (upsert_author db p freshOid now).2 = db ++ [d]
          ∧ d.books = [] ∧ d.slug = p.slug ∧ d.oid = freshOid ∧ d.createdAt = now)
    ∧ (∀ (db : List AuthorDoc) (a b : Nat),
        link_book_to_author (link_book_to_author db a b) a b
          = link_book_to_author db a b)
    ∧ (∀ (a b : Nat) (d : AuthorDoc) (x : Nat),
        x ∈ (addBookToSet a b d).books ↔ x ∈ d.books ∨ (d.oid = a ∧ x = b))
    ∧ (∀ (a b : Nat) (d : AuthorDoc), d.books ⊆ (addBookToSet a b d).books)
    ∧ (∀ (a b : Nat) (d : AuthorDoc), d.books.Nodup → (addBookToSet a b d).books.Nodup) := by
  have haddeq : ∀ (a b : Nat) (d : AuthorDoc), (d.oid == a) = true →
      (d.books.contains b) = true → addBookToSet a b d = d := by
    intro a b d hoid hb
    unfold addBookToSet
    rw [if_pos hoid, if_pos hb]
  have haddapp : ∀ (a b : Nat) (d : AuthorDoc), (d.oid == a) = true →
      ¬((d.books.contains b) = true) →
      addBookToSet a b d = { d with books := d.books ++ [b] } := by
    intro a b d hoid hb
    unfold addBookToSet
    rw [if_pos hoid, if_neg hb]
  have haddskip : ∀ (a b : Nat) (d : AuthorDoc), ¬((d.oid == a) = true) →
      addBookToSet a b d = d := by
    intro a b d hoid
    unfold addBookToSet
    rw [if_neg hoid]
  have hmem : ∀ (a b : Nat) (d : AuthorDoc) (x : Nat),
      x ∈ (addBookToSet a b d).books ↔ x ∈ d.books ∨ (d.oid = a ∧ x = b) := by
    intro a b d x
    by_cases hoid : (d.oid == a) = true
    · have hoid' : d.oid = a := by simpa using hoid
      by_cases hb : (d.books.contains b) = true
      · have hb' : b ∈ d.books := by simpa using hb
        rw [haddeq a b d hoid hb]
        constructor
        · exact fun h => Or.inl h
        · rintro (h | ⟨-, rfl⟩)
          · exact h
          · exact hb'
      · rw [haddapp a b d hoid hb]
        show x ∈ d.books ++ [b] ↔ _
        rw [List.mem_append, List.mem_singleton]
        constructor
        · rintro (h | rfl)
          · exact Or.inl h
          · exact Or.inr ⟨hoid', rfl⟩
        · rintro (h | ⟨-, rfl⟩)
          · exact Or.inl h
          · exact Or.inr rfl
    · have hoid' : ¬(d.oid = a) := fun h => hoid (by simp [h])
      rw [haddskip a b d hoid]
      constructor
      · exact fun h => Or.inl h
      · rintro (h | ⟨hcontra, -⟩)
        · exact h
        · exact absurd hcontra hoid'
  refine ⟨?_, ?_, ?_, hmem, ?_, ?_⟩
  · intro db p freshOid now doc hfind
    rw [upsert_author, hfind]
    simp only [List.map_map]
    apply List.map_congr_left
    intro d _
    by_cases hslug : (d.slug == p.slug) = true
    · have : d.slug = p.slug := by simpa using hslug
      simp [Function.comp, hslug, this]
    · simp [Function.comp, hslug]
  · intro db p freshOid now hfind
    rw [upsert_author, hfind]
    exact ⟨_, rfl, rfl, rfl, rfl, rfl⟩
  · intro db a b
    unfold link_book_to_author
    rw [List.map_map]
    apply List.map_congr_left
    intro d _
    show addBookToSet a b (addBookToSet a b d) = addBookToSet a b d
    by_cases hoid : (d.oid == a) = true
    · by_cases hb : (d.books.contains b) = true
      · rw [haddeq a b d hoid hb, haddeq a b d hoid hb]
      · rw [haddapp a b d hoid hb]
        apply haddeq
        · exact hoid
        · show ((d.books ++ [b]).contains b) = true
          simp
    · rw [haddskip a b d hoid, haddskip a b d hoid]
  · intro a b d x hx
    exact (hmem a b d x).mpr (Or.inl hx)
  · intro a b d hnodup
    by_cases hoid : (d.oid == a) = true
    · by_cases hb : (d.books.contains b) = true
      · rw [haddeq a b d hoid hb]
        exact hnodup
      · have hnotin : b ∉ d.books := fun h => hb (by simpa using h)
        rw [haddapp a b d hoid hb]
        show (d.books ++ [b]).Nodup
        simpa [List.nodup_append] using ⟨hnodup, hnotin⟩
    · rw [haddskip a b d hoid]
      exact hnodup

/-- A concrete stored author document, for the C1 witness. -/
def twainDoc : AuthorDoc :=
  { oid := 1, slug := "mark-twain", name := "Mark Twain", bio := "old",
    profilePicture := "p", nationality := "US", books := [7], createdAt := 0 }

/-- A concrete author payload, for the C1 witness. -/
def twainPayload : AuthorPayload :=
  { name := "Mark Twain", slug := "mark-twain", bio := "new",
    profilePicture := "q", nationality := "US", books := [] }

/-- Witness for C1: each hypothesis-bearing conjunct at a concrete store. -/
theorem author_owned_books_invariants_witness :
    (upsert_author [twainDoc] twainPayload 2 5).2.map (fun d => (d.oid, d.books))
      = [(1, [7])]
    ∧ (∃ d, (upsert_author [] twainPayload 2 5).2 = [] ++ [d]
        ∧ d.books = [] ∧ d.slug = "mark-twain" ∧ d.oid = 2 ∧ d.createdAt = 5)
    ∧ (3 ∈ (addBookToSet 1 3 twainDoc).books)
    ∧ (addBookToSet 1 3 twainDoc).books.Nodup := by
  refine ⟨?_, ?_, ?_, ?_⟩
  · exact (author_owned_books_invariants.1 [twainDoc] twainPayload 2 5 twainDoc
      (by decide)).trans (by decide)
  · exact author_owned_books_invariants.2.1 [] twainPayload 2 5 rfl
  · exact (author_owned_books_invariants.2.2.2.1 1 3 twainDoc 3).mpr (Or.inr ⟨rfl, rfl⟩)
  · exact author_owned_books_invariants.2.2.2.2.2 1 3 twainDoc (by decide)

/-! ## C2: book upsert (mongo_handler.py insert_book, lines 117-155) -/

/-- A Book document, with the fields insert_book touches (the remaining payload
fields behave exactly like `title` under the `$set`). -/
structure BookDoc where
  oid : Nat
  slug : String
  title : String
  description : String
  author : Nat
  genre : List Nat
  isbn : Option String
  coverImage : String
  ebookFileUrl : String
  editorPick : Bool
  createdAt : Nat
  updatedAt : Nat
deriving DecidableEq

/-- The book payload after prepare_book_payload and the orchestrator's
overrides. -/
structure BookPayload where
  slug : String
  title : String
  description : String
  author : Nat
  genre : List Nat
  isbn : Option String
  coverImage : String
  ebookFileUrl : String
  editorPick : Bool
deriving DecidableEq

/-- The per-document effect of insert_book's update on a slug-matching document:
`editorPick` was popped from the payload before the `$set`, so the `$set`
refreshes every other field plus `updatedAt`, and `$setOnInsert` does not apply. -/
def updateBookDoc (p : BookPayload) (now : Nat) (d : BookDoc) : BookDoc :=
  if d.slug == p.slug then
    { oid := d.oid, slug := p.slug, title := p.title, description := p.description,
      author := p.author, genre := p.genre, isbn := p.isbn,
      coverImage := p.coverImage, ebookFileUrl := p.ebookFileUrl,
      editorPick := d.editorPick, createdAt := d.createdAt, updatedAt := now }
  else d

/-- Model of insert_book lines 117-155: `is_pick = book_data.pop('editorPick')`;
find_one_and_update on `slug` with `$set {**book_data, updatedAt}` and
`$setOnInsert {editorPick: is_pick, createdAt}`; upsert=True. -/
def insert_book (db : List BookDoc) (p : BookPayload) (freshOid now : Nat) :
    Nat × List BookDoc :=
  match db.find? (fun doc => doc.slug == p.slug) with
  | some doc => (doc.oid, db.map (updateBookDoc p now))
  | none =>
    (freshOid,
     db ++ [{ oid := freshOid, slug := p.slug, title := p.title,
              description := p.description, author := p.author, genre := p.genre,
              isbn := p.isbn, coverImage := p.coverImage,
              ebookFileUrl := p.ebookFileUrl, editorPick := p.editorPick,
              createdAt := now, updatedAt := now }])

/-- Claim C2: insert_book keys on slug; on first creation it sets the
editorial-pick flag and the creation timestamp; on update it refreshes every
other field and `updatedAt` but leaves the stored `editorPick` (and `createdAt`)
of the existing document unchanged — in particular a stored true value can never
be downgraded by a later run's recomputation. -/
theorem book_upsert_editor_pick_frame :
    (∀ (db : List BookDoc) (p : BookPayload) (freshOid now : Nat),
        db.find? (fun d => d.slug == p.slug) = none →
        ∃ d, (insert_book db p freshOid now).2 = db ++ [d]
          ∧ d.editorPick = p.editorPick ∧ d.createdAt = now ∧ d.slug = p.slug
          ∧ d.oid = freshOid)
    ∧ (∀ (db : List BookDoc) (p : BookPayload) (freshOid now : Nat) (doc : BookDoc),
        db.find? (fun d => d.slug == p.slug) = some doc →
        (insert_book db p freshOid now).1 = doc.oid
          ∧ (insert_book db p freshOid now).2 = db.map (updateBookDoc p now))
    ∧ (∀ (p : BookPayload) (now : Nat) (d : BookDoc), d.slug = p.slug →
        (updateBookDoc p now d).editorPick = d.editorPick
          ∧ (updateBookDoc p now d).createdAt = d.createdAt
          ∧ (updateBookDoc p now d).title = p.title
          ∧ (updateBookDoc p now d).description = p.description
          ∧ (updateBookDoc p now d).author = p.author
          ∧ (updateBookDoc p now d).genre = p.genre
          ∧ (updateBookDoc p now d).isbn = p.isbn
          ∧ (updateBookDoc p now d).coverImage = p.coverImage
          ∧ (updateBookDoc p now d).ebookFileUrl = p.ebookFileUrl
          ∧ (updateBookDoc p now d).updatedAt = now)
    ∧ (∀ (p : BookPayload) (now : Nat) (d : BookDoc),
        d.editorPick = true → (updateBookDoc p now d).editorPick = true) := by
  refine ⟨?_, ?_, ?_, ?_⟩
  · intro db p freshOid now hfind
    rw [insert_book, hfind]
    exact ⟨_, rfl, rfl, rfl, rfl, rfl⟩
  · intro db p freshOid now doc hfind
    rw [insert_book, hfind]
    exact ⟨rfl, rfl⟩
  · intro p now d hslug
    unfold updateBookDoc
    rw [if_pos (by simpa using hslug)]
    exact ⟨rfl, rfl, rfl, rfl, rfl, rfl, rfl, rfl, rfl, rfl⟩
  · intro p now d hpick
    unfold updateBookDoc
    by_cases hslug : d.slug == p.slug
    · simp [hslug, hpick]
    · simp [hslug, hpick]

/-- A concrete book payload, for the C2 witness. -/
def draculaPayload : BookPayload :=
  { slug := "dracula", title := "Dracula", description := "x", author := 1,
    genre := [2], isbn := none, coverImage := "c", ebookFileUrl := "e",
    editorPick := true }

/-- A concrete re-ingestion payload recomputing editorPick as false, for the C2
witness. -/
def draculaPayload2 : BookPayload :=
  { slug := "dracula", title := "Dracula (new)", description := "y", author := 1,
    genre := [2], isbn := none, coverImage := "c2", ebookFileUrl := "e2",
    editorPick := false }

/-- A concrete stored book document with editorPick already true, for the C2
witness. -/
def draculaDoc : BookDoc :=
  { oid := 9, slug := "dracula", title := "Dracula", description := "x",
    author := 1, genre := [2], isbn := none, coverImage := "c",
    ebookFileUrl := "e", editorPick := true, createdAt := 4, updatedAt := 4 }

/-- Witness for C2: creation and update at a concrete store. -/
theorem book_upsert_editor_pick_frame_witness :
    (∃ d, (insert_book [] draculaPayload 9 4).2 = [] ++ [d]
        ∧ d.editorPick = true ∧ d.createdAt = 4 ∧ d.slug = "dracula" ∧ d.oid = 9)
    ∧ (updateBookDoc draculaPayload2 8 draculaDoc).editorPick = true := by
  constructor
  · exact book_upsert_editor_pick_frame.1 [] draculaPayload 9 4 rfl
  · exact book_upsert_editor_pick_frame.2.2.2 draculaPayload2 8 draculaDoc rfl

end Parable
